import Mathlib

/-!
Verification of the git-share core: code scheme, key derivation,
authenticated encryption framing, the relay blob store, and the relay
HTTP handlers, shallowly embedded from the Go sources
(`internal/crypto`, `internal/wordlist`, `internal/server`).

Times and durations are modelled as integers (Go `time.Time` /
`time.Duration` are integer nanosecond counts); byte strings as
`List Nat`; the current instant is passed explicitly to each operation
that reads the clock.
-/

namespace GitShare

/-! ## Blob store (`internal/server`, `store.go`) -/

/-- A stored blob: data bytes (kept as the decoded request string),
creation timestamp and TTL, as in Go `type Blob struct`. -/
structure Blob where
  data : String
  createdAt : Int
  ttl : Int
deriving DecidableEq

/-- The relay store: Go `map[string]*Blob`, embedded as an association
list with unique keys (uniqueness is maintained by `Put`). -/
abbrev Store := List (String × Blob)

/-- Map lookup, as Go `s.blobs[codeID]`. -/
def lookupID : Store → String → Option Blob
  | [], _ => none
  | p :: rest, id => if p.1 = id then some p.2 else lookupID rest id

/-- Map deletion, as Go `delete(s.blobs, codeID)`. -/
def eraseKey (st : Store) (id : String) : Store :=
  st.filter (fun p => p.1 ≠ id)

/-- Go `Store.Put`: inserts iff the code ID is absent; returns false without
mutation if it already exists. -/
def Put (st : Store) (codeID : String) (data : String) (ttl : Int) (now : Int) :
    Bool × Store :=
  match lookupID st codeID with
  | some _ => (false, st)
  | none => (true, (codeID, ⟨data, now, ttl⟩) :: st)

/-- Go `Store.GetAndDelete`: atomically retrieves and deletes a blob
(one-time use); returns `none` if the blob is absent or its TTL has
elapsed (`time.Since(blob.CreatedAt) > blob.TTL`), deleting it in the
expired case as well. -/
def GetAndDelete (st : Store) (codeID : String) (now : Int) :
    Option String × Store :=
  match lookupID st codeID with
  | none => (none, st)
  | some b =>
    if b.ttl < now - b.createdAt then (none, eraseKey st codeID)
    else (some b.data, eraseKey st codeID)

/-- Go `Store.Count`: Go `len(s.blobs)` — the raw size of the map. -/
def Count (st : Store) : Nat := st.length

/-- Go `Store.Cleanup`: removes every entry whose age exceeds its TTL,
returning the new store (the Go method also returns the removed count,
recoverable as the length difference). -/
def Cleanup (st : Store) (now : Int) : Store :=
  st.filter (fun p => ¬ (p.2.ttl < now - p.2.createdAt))

/-- Modelled from the spec: "count() → int: current live entry count",
"the number of stored entries whose TTL has not elapsed" — the
spec-mandated value of `count`, to be compared with the source's
`Count`. -/
def liveCount (st : Store) (now : Int) : Nat :=
  (st.filter (fun p => !decide (p.2.ttl < now - p.2.createdAt))).length

/-- Number of stored entries whose TTL has elapsed at `now`. -/
def expiredCount (st : Store) (now : Int) : Nat :=
  (st.filter (fun p => p.2.ttl < now - p.2.createdAt)).length

/-! ## Relay HTTP handlers (`internal/server`, `server.go`) -/

/-- Server configuration: max blob size in bytes and maximum TTL
(nanoseconds), as Go `type Config struct`. -/
structure Config where
  maxSize : Int
  maxTTL : Int
deriving DecidableEq

/-- JSON body of `POST /api/send`: code ID, base64 data, TTL in seconds
(0 = use server default). -/
structure SendReq where
  codeID : String
  data : String
  ttl : Int
deriving DecidableEq

/-- JSON response of `POST /api/send`; `expiry` is modelled as the
instant itself rather than its RFC3339 rendering. -/
structure SendResp where
  ok : Bool
  expiry : Option Int
  error : String
deriving DecidableEq

/-- JSON response of `GET /api/receive/id`. -/
structure ReceiveResp where
  ok : Bool
  data : Option String
  error : String
deriving DecidableEq

/-- Nanoseconds per second: Go `time.Second`. -/
def nsPerSec : Int := 1000000000

/-- Two's-complement wrap into signed 64-bit range, as Go int64
arithmetic (`time.Duration` is an int64 nanosecond count). -/
def wrap64 (x : Int) : Int :=
  (x + 9223372036854775808) % 18446744073709551616 - 9223372036854775808

/-- The TTL `handleSend` applies: for a positive requested TTL, Go
computes `time.Duration(req.TTL) * time.Second` — int64 multiplication
that wraps on overflow — and caps the wrapped result at `cfg.maxTTL`;
otherwise `cfg.maxTTL`. -/
def appliedTTL (cfg : Config) (reqTTL : Int) : Int :=
  if 0 < reqTTL then
    if wrap64 (reqTTL * nsPerSec) < cfg.maxTTL then wrap64 (reqTTL * nsPerSec)
    else cfg.maxTTL
  else cfg.maxTTL

/-- Go `Server.handleSend` after JSON decoding: field validation (400),
TTL determination, `Put` (409 on duplicate), 201 with the expiry
instant on success. The single `now` models the request's clock
readings. -/
def handleSend (cfg : Config) (st : Store) (req : SendReq) (now : Int) :
    (Nat × SendResp) × Store :=
  if req.codeID = "" ∨ req.data = "" then
    ((400, ⟨false, none, "code_id and data are required"⟩), st)
  else
    let ttl := appliedTTL cfg req.ttl
    let r := Put st req.codeID req.data ttl now
    if r.1 then ((201, ⟨true, some (now + ttl), ""⟩), r.2)
    else ((409, ⟨false, none, "code ID already exists, try again"⟩), r.2)

/-- Go `Server.handleReceive`: 400 on empty id, otherwise `GetAndDelete`;
404 with the single error "not found or expired" on a miss, 200 with
the data on a hit. -/
def handleReceive (st : Store) (id : String) (now : Int) :
    (Nat × ReceiveResp) × Store :=
  if id = "" then ((400, ⟨false, none, "missing code ID"⟩), st)
  else
    let r := GetAndDelete st id now
    match r.1 with
    | none => ((404, ⟨false, none, "not found or expired"⟩), r.2)
    | some d => ((200, ⟨true, some d, ""⟩), r.2)

/-- Go `Server.handleHealth`: status 200 with `ok = true` and
`blobs = Count store`. -/
def handleHealth (st : Store) : Nat × Bool × Nat :=
  (200, true, Count st)

/-- Go `Client.Send`'s handling of a decoded server response: any response
with `ok = false` becomes the error "server error: " followed by the
server's error string; otherwise the response is returned. -/
def clientSendResult (r : SendResp) : Except String SendResp :=
  if r.ok then Except.ok r
  else Except.error ("server error: " ++ r.error)

/-! ## Code scheme (`internal/crypto`) and word list
(`internal/wordlist`) -/

/-- Go `CodeIDLength`: length of the random code ID. -/
def CodeIDLength : Nat := 10

/-- Go `PassphraseWords`: number of diceware words in a passphrase. -/
def PassphraseWords : Nat := 4

/-- The separator: `PassphraseSep` and `CodeSep` are both "-". -/
def sepChar : Char := '-'

/-- Go `base62Chars`: the charset code IDs are drawn from. -/
def base62Chars : List Char :=
  "0123456789ABCDEFGHIJKLMNOPQRSTUVWXYZabcdefghijklmnopqrstuvwxyz".data

/-- Go `wordlist.Words`: the fixed word list. -/
def wordsList : List String := [
  "acid", "acme", "aged", "also", "arch", "aqua", "area", "atom",
  "aunt", "avid", "axis", "back", "bald", "band", "bark", "barn",
  "base", "bath", "bean", "bear", "beat", "belt", "bend", "bike",
  "bird", "bite", "blow", "blue", "blur", "boat", "bold", "bolt",
  "bomb", "bond", "bone", "book", "boot", "bore", "boss", "bowl",
  "bulk", "bump", "burn", "buzz", "cafe", "cage", "cake", "calm",
  "came", "camp", "cape", "card", "care", "cart", "case", "cash",
  "cast", "cave", "chat", "chip", "chop", "city", "clad", "clam",
  "clan", "claw", "clay", "clip", "club", "clue", "coal", "coat",
  "code", "coil", "coin", "cold", "colt", "cone", "cook", "cool",
  "cope", "copy", "cord", "core", "corn", "cost", "cozy", "crew",
  "crop", "crow", "cube", "curl", "cute", "damp", "dare", "dark",
  "dart", "dash", "dawn", "deal", "dear", "deck", "deed", "deep",
  "deer", "demo", "dent", "desk", "dial", "dice", "dime", "dock",
  "dome", "door", "dose", "dove", "down", "draw", "drip", "drop",
  "drum", "dull", "dune", "dusk", "dust", "each", "earl", "earn",
  "ease", "east", "echo", "edge", "edit", "else", "epic", "even",
  "ever", "evil", "exam", "exit", "face", "fact", "fade", "fail",
  "fair", "fall", "fame", "fang", "farm", "fast", "fate", "fawn",
  "fear", "feat", "feed", "feel", "file", "fill", "film", "find",
  "fine", "fire", "firm", "fish", "fist", "five", "flag", "flat",
  "fled", "flex", "flip", "flow", "foam", "fold", "folk", "fond",
  "font", "food", "foot", "ford", "fork", "form", "fort", "foul",
  "four", "free", "frog", "from", "fuel", "full", "fund", "fury",
  "fuse", "gain", "gait", "gale", "game", "gang", "gate", "gave",
  "gaze", "gear", "gene", "gift", "glad", "glow", "glue", "goat",
  "gold", "golf", "gone", "good", "grab", "gray", "grew", "grid",
  "grim", "grin", "grip", "grit", "grow", "gulf", "guru", "gust",
  "half", "hall", "halt", "hand", "hang", "hard", "harm", "harp",
  "hash", "haste", "hate", "haul", "hawk", "haze", "head", "heal",
  "heap", "heat", "held", "helm", "help", "herb", "herd", "hero",
  "hide", "high", "hike", "hill", "hint", "hire", "hold", "hole"
]

/-- The word list as character lists. -/
def Words : List (List Char) := wordsList.map (fun s => s.data)

/-- Go `base62Chars[idx]` for an index produced by `rand.Int` (always in
range in Go; the out-of-range default stays inside the alphabet). -/
def charAt62 (i : Nat) : Char :=
  match base62Chars.get? i with
  | some c => c
  | none => '0'

/-- Go `Words[idx]` for an index produced by `rand.Int` (always in range
in Go; the out-of-range default stays inside the list). -/
def nthWord (i : Nat) : List Char :=
  match Words.get? i with
  | some w => w
  | none => "acid".data

/-- Go `generateCodeID`, with the random draws (each < 62) passed
explicitly: maps each draw to its base62 character. -/
def generateCodeID (idxs : List Nat) : List Char :=
  idxs.map charAt62

/-- Go `strings.Join ws sep` for a single-character separator. -/
def joinSep (sep : Char) : List (List Char) → List Char
  | [] => []
  | [w] => w
  | w :: ws => w ++ sep :: joinSep sep ws

/-- Go `wordlist.Pick`, with the random draws passed explicitly: the
chosen words joined by the separator. -/
def Pick (idxs : List Nat) : List Char :=
  joinSep sepChar (idxs.map nthWord)

/-- Go `GenerateCode`, with the random draws passed explicitly: returns
(code, codeID, passphrase) with code = codeID ++ "-" ++ passphrase. -/
def GenerateCode (cIdxs wIdxs : List Nat) :
    List Char × List Char × List Char :=
  (generateCodeID cIdxs ++ sepChar :: Pick wIdxs,
   generateCodeID cIdxs, Pick wIdxs)

/-- Go `strings.SplitN s sep 2` for a single-character separator, as the
pair around the first separator occurrence (`none` when the separator
does not occur, in which case Go returns a single fragment and
`ParseCode` rejects). -/
def splitFirst (sep : Char) : List Char → Option (List Char × List Char)
  | [] => none
  | c :: rest =>
    if c = sep then some ([], rest)
    else
      match splitFirst sep rest with
      | none => none
      | some (a, b) => some (c :: a, b)

/-- Go `strings.Split s sep` for a single-character separator: all
fragments; the empty string yields one empty fragment, as in Go. -/
def splitAll (sep : Char) : List Char → List (List Char)
  | [] => [[]]
  | c :: rest =>
    if c = sep then [] :: splitAll sep rest
    else
      match splitAll sep rest with
      | [] => [[c]]
      | h :: t => (c :: h) :: t

/-- Go `ParseCode`: split on the first separator, reject if no separator
or either half empty, then reject unless the passphrase half splits
into exactly `PassphraseWords` words. -/
def ParseCode (code : List Char) : Option (List Char × List Char) :=
  match splitFirst sepChar code with
  | none => none
  | some (a, b) =>
    if a = [] ∨ b = [] then none
    else if (splitAll sepChar b).length = PassphraseWords then some (a, b)
    else none

/-! ## Cipher and key derivation (`internal/crypto`)

The XChaCha20-Poly1305 AEAD and HKDF-SHA256 live in the external
golang.org/x/crypto modules, outside this repository; they are
modelled here by executable functions with the primitives' interface
contract (fresh nonce prepended by the caller, keystream XOR plus an
appended 16-byte tag recomputed and compared on open, a 32-byte
derived key that is a pure function of the passphrase). The
repository-owned framing — nonce prefix, key/length checks, error
mapping — is translated from `crypto.go`. -/

/-- Go `chacha20poly1305.KeySize` = 32. -/
def KeySize : Nat := 32

/-- Go `chacha20poly1305.NonceSizeX` = 24. -/
def NonceSizeX : Nat := 24

/-- Go `chacha20poly1305.Overhead` = 16 (the Poly1305 tag). -/
def TagSize : Nat := 16

/-- One byte-mixing step of the modelled primitives (bounded to keep
values small). -/
def mixFold (acc b : Nat) : Nat := (acc * 131 + b + 1) % 4294967296

/-- Absorb a byte string into a seed. -/
def absorb (seed : Nat) (bs : List Nat) : Nat := bs.foldl mixFold seed

/-- Modelled keystream byte `i` under (key, nonce). -/
def ksByte (key nonce : List Nat) (i : Nat) : Nat :=
  (absorb 7 key * 31 + absorb 11 nonce * 17 + i * 97 + 5) % 256

/-- Modelled keystream of length `n` under (key, nonce). -/
def keystream (key nonce : List Nat) (n : Nat) : List Nat :=
  (List.range n).map (ksByte key nonce)

/-- Pointwise XOR of two byte strings. -/
def xorBytes (a b : List Nat) : List Nat :=
  List.zipWith (fun x y => x ^^^ y) a b

/-- Modelled 16-byte authentication tag over (key, nonce, ct). -/
def polyTag (key nonce ct : List Nat) : List Nat :=
  (List.range TagSize).map
    (fun i => (absorb (i + 13) (key ++ nonce ++ ct) + i * 29) % 256)

/-- Modelled `aead.Seal`: keystream-encrypted payload followed by the
tag. -/
def sealX (key nonce pt : List Nat) : List Nat :=
  xorBytes pt (keystream key nonce pt.length) ++
    polyTag key nonce (xorBytes pt (keystream key nonce pt.length))

/-- Modelled `aead.Open`: fails (with no cause information) unless the
recomputed tag matches; on success returns the decrypted payload. -/
def openX (key nonce data : List Nat) : Option (List Nat) :=
  if data.length < TagSize then none
  else
    if data.drop (data.length - TagSize)
        = polyTag key nonce (data.take (data.length - TagSize)) then
      some (xorBytes (data.take (data.length - TagSize))
        (keystream key nonce (data.take (data.length - TagSize)).length))
    else none

/-- Modelled from the spec: `DeriveKey` uses "HMAC-based
extract-and-expand key derivation over the passphrase ... producing a
key exactly the length required by Cipher" — the HKDF-SHA256 primitive
is external; the model is a deterministic pure function of the
passphrase alone producing `KeySize` bytes. -/
def DeriveKey (passphrase : List Nat) : List Nat :=
  (List.range KeySize).map
    (fun i => (absorb (i + 41) passphrase + i * 59) % 256)

/-- Go `Encrypt`, with the random nonce passed explicitly: cipher
creation fails on a wrong-size key; otherwise the result is
nonce ++ Seal(plaintext). -/
def Encrypt (plaintext key nonce : List Nat) : Except String (List Nat) :=
  if key.length ≠ KeySize then
    Except.error "creating cipher: chacha20poly1305: bad key length"
  else Except.ok (nonce ++ sealX key nonce plaintext)

/-- Go `Decrypt`: cipher creation check, then the too-short check against
the nonce size, then `Open` on the split nonce/remainder; an `Open`
failure is reported with the one fixed message. -/
def Decrypt (ciphertext key : List Nat) : Except String (List Nat) :=
  if key.length ≠ KeySize then
    Except.error "creating cipher: chacha20poly1305: bad key length"
  else if ciphertext.length < NonceSizeX then
    Except.error "ciphertext too short"
  else
    match openX key (ciphertext.take NonceSizeX)
        (ciphertext.drop NonceSizeX) with
    | none =>
      Except.error
        "decryption failed (wrong passphrase?): chacha20poly1305: message authentication failed"
    | some pt => Except.ok pt

/-- Equality of crypto results is decidable (componentwise). -/
instance : DecidableEq (Except String (List Nat)) := fun a b =>
  match a, b with
  | Except.ok x, Except.ok y =>
    if h : x = y then Decidable.isTrue (by rw [h])
    else Decidable.isFalse (by simp [h])
  | Except.error x, Except.error y =>
    if h : x = y then Decidable.isTrue (by rw [h])
    else Decidable.isFalse (by simp [h])
  | Except.ok _, Except.error _ => Decidable.isFalse (by simp)
  | Except.error _, Except.ok _ => Decidable.isFalse (by simp)

end GitShare

namespace GitShare

/-! ## Store lemmas -/

theorem lookupID_eraseKey (st : Store) (id : String) :
    lookupID (eraseKey st id) id = none := by
  induction st with
  | nil => rfl
  | cons p rest ih =>
    by_cases h : p.1 = id
    · simp [eraseKey, List.filter, h] at ih ⊢
      exact ih
    · simpa [eraseKey, List.filter, h, lookupID] using ih

theorem lookupID_cons_self (st : Store) (id : String) (b : Blob) :
    lookupID ((id, b) :: st) id = some b := by
  simp [lookupID]

end GitShare

namespace GitShare

/-- Claim C2: with codeID absent and ttl > 0, `Put` returns true, an
immediately following `GetAndDelete` returns the stored data, and a
second `GetAndDelete` with no intervening `Put` returns missing — a
stored blob is delivered to at most one fetch. -/
theorem put_get_once (st : Store) (id : String) (d : String)
    (ttl now now2 : Int) (habs : lookupID st id = none) (hpos : 0 < ttl) :
    (Put st id d ttl now).1 = true ∧
    (GetAndDelete (Put st id d ttl now).2 id now).1 = some d ∧
    (GetAndDelete (GetAndDelete (Put st id d ttl now).2 id now).2 id now2).1
      = none := by
  have hput : Put st id d ttl now = (true, (id, ⟨d, now, ttl⟩) :: st) := by
    simp [Put, habs]
  have hget : GetAndDelete ((id, ⟨d, now, ttl⟩) :: st) id now
      = (some d, eraseKey ((id, ⟨d, now, ttl⟩) :: st) id) := by
    rw [GetAndDelete, lookupID_cons_self]
    dsimp only
    rw [if_neg (by omega)]
  refine ⟨by simp [hput], ?_, ?_⟩
  · simp [hput, hget]
  · simp only [hput, hget]
    simp [GetAndDelete, lookupID_eraseKey]

/-- Witness for C2 at a concrete input. -/
theorem put_get_once_witness :
    lookupID ([] : Store) "id1234567" = none ∧ (0 : Int) < 3600 ∧
    ((Put [] "id1234567" "diff content" 3600 0).1 = true ∧
     (GetAndDelete (Put [] "id1234567" "diff content" 3600 0).2
        "id1234567" 0).1 = some "diff content" ∧
     (GetAndDelete
        (GetAndDelete (Put [] "id1234567" "diff content" 3600 0).2
          "id1234567" 0).2 "id1234567" 7).1 = none) :=
  ⟨rfl, by decide, put_get_once [] "id1234567" "diff content" 3600 0 7 rfl (by decide)⟩

/-- Claim C4: when codeID `id` is already present holding blob `b`,
`Put` of other data returns false and leaves the store unchanged; any
later `GetAndDelete` yields either missing or `b`'s data, and never
data `d2` differing from it. -/
theorem put_duplicate_unchanged (st : Store) (id : String) (b : Blob)
    (d2 : String) (ttl now : Int) (hpres : lookupID st id = some b) :
    Put st id d2 ttl now = (false, st) ∧
    (∀ now' : Int, (GetAndDelete st id now').1 = none ∨
      (GetAndDelete st id now').1 = some b.data) ∧
    (∀ now' : Int, d2 ≠ b.data → (GetAndDelete st id now').1 ≠ some d2) := by
  have hcases : ∀ now' : Int, (GetAndDelete st id now').1 = none ∨
      (GetAndDelete st id now').1 = some b.data := by
    intro now'
    rw [GetAndDelete, hpres]
    dsimp only
    by_cases h : b.ttl < now' - b.createdAt
    · left; rw [if_pos h]
    · right; rw [if_neg h]
  refine ⟨by simp [Put, hpres], hcases, ?_⟩
  intro now' hne hcontra
  rcases hcases now' with h | h
  · rw [h] at hcontra; exact Option.noConfusion hcontra
  · rw [h] at hcontra
    exact hne (Option.some.inj hcontra).symm

/-- Witness for C4 at a concrete input. -/
theorem put_duplicate_unchanged_witness :
    lookupID [("a", (⟨"d1", 0, 3600⟩ : Blob))] "a"
      = some (⟨"d1", 0, 3600⟩ : Blob) ∧
    Put [("a", (⟨"d1", 0, 3600⟩ : Blob))] "a" "d2" 3600 5
      = (false, [("a", (⟨"d1", 0, 3600⟩ : Blob))]) ∧
    (GetAndDelete [("a", (⟨"d1", 0, 3600⟩ : Blob))] "a" 1).1 ≠ some "d2" :=
  ⟨by decide,
   (put_duplicate_unchanged [("a", ⟨"d1", 0, 3600⟩)] "a" ⟨"d1", 0, 3600⟩
      "d2" 3600 5 (by decide)).1,
   (put_duplicate_unchanged [("a", ⟨"d1", 0, 3600⟩)] "a" ⟨"d1", 0, 3600⟩
      "d2" 3600 5 (by decide)).2.2 1 (by decide)⟩

/-- Claim C5: when the stored entry's age since insertion exceeds its
TTL, `GetAndDelete` itself returns missing and removes the entry — the
expiry check is part of `GetAndDelete`'s definition and needs no prior
sweep. -/
theorem getAndDelete_expired (st : Store) (id : String) (b : Blob)
    (now : Int) (hpres : lookupID st id = some b)
    (hexp : b.ttl < now - b.createdAt) :
    (GetAndDelete st id now).1 = none ∧
    lookupID (GetAndDelete st id now).2 id = none := by
  have h : GetAndDelete st id now = (none, eraseKey st id) := by
    rw [GetAndDelete, hpres]
    dsimp only
    rw [if_pos hexp]
  rw [h]
  exact ⟨rfl, lookupID_eraseKey st id⟩

/-- Witness for C5 at a concrete input: TTL 5 ns, fetched at instant
10. -/
theorem getAndDelete_expired_witness :
    lookupID [("a", (⟨"d", 0, 5⟩ : Blob))] "a" = some (⟨"d", 0, 5⟩ : Blob) ∧
    (5 : Int) < 10 - 0 ∧
    ((GetAndDelete [("a", (⟨"d", 0, 5⟩ : Blob))] "a" 10).1 = none ∧
     lookupID (GetAndDelete [("a", (⟨"d", 0, 5⟩ : Blob))] "a" 10).2 "a"
       = none) :=
  ⟨by decide, by decide,
   getAndDelete_expired [("a", ⟨"d", 0, 5⟩)] "a" ⟨"d", 0, 5⟩ 10
     (by decide) (by decide)⟩

/-- Counterexample to claim C6: the accepted request ttl = 10^10
seconds (a valid 64-bit int in the JSON body) is answered 201, yet the
applied TTL is not min(requested, configured maximum): the int64
multiplication by `time.Second` wraps negative, so the blob is stored
already expired instead of being capped at the maximum. -/
theorem send_ttl_overflow_counterexample :
    (0 : Int) < 10000000000 ∧
    (handleSend ⟨10485760, 3600000000000⟩ []
      ⟨"id1", "data", 10000000000⟩ 0).1.1 = 201 ∧
    appliedTTL ⟨10485760, 3600000000000⟩ 10000000000
      ≠ min ((10000000000 : Int) * nsPerSec) (3600000000000 : Int) ∧
    appliedTTL ⟨10485760, 3600000000000⟩ 10000000000 < 0 := by
  decide

/-- Claim C6 as amended: for an accepted send request with positive
requested TTL the applied TTL is min(int64-wrapped requested seconds
times 10^9, configured maximum) — which equals the claimed
min(requested, configured maximum) whenever the conversion to
nanoseconds does not overflow int64 — it is the server default (the
configured maximum) when the requested TTL is 0, and the 201 response
carries the effective expiry instant: the insertion time plus the
applied TTL. -/
theorem send_ttl_policy (cfg : Config) (st : Store) (req : SendReq)
    (now : Int) (hid : req.codeID ≠ "") (hdata : req.data ≠ "")
    (habs : lookupID st req.codeID = none) :
    (0 < req.ttl →
      appliedTTL cfg req.ttl = min (wrap64 (req.ttl * nsPerSec)) cfg.maxTTL) ∧
    (0 < req.ttl → req.ttl * nsPerSec < 9223372036854775808 →
      appliedTTL cfg req.ttl = min (req.ttl * nsPerSec) cfg.maxTTL) ∧
    (req.ttl = 0 → appliedTTL cfg req.ttl = cfg.maxTTL) ∧
    handleSend cfg st req now =
      ((201, ⟨true, some (now + appliedTTL cfg req.ttl), ""⟩),
       (req.codeID, ⟨req.data, now, appliedTTL cfg req.ttl⟩) :: st) := by
  refine ⟨?_, ?_, ?_, ?_⟩
  · intro hpos
    rw [appliedTTL, if_pos hpos]
    rcases lt_or_le (wrap64 (req.ttl * nsPerSec)) cfg.maxTTL with h | h
    · rw [if_pos h, min_eq_left (le_of_lt h)]
    · rw [if_neg (not_lt.mpr h), min_eq_right h]
  · intro hpos hsmall
    have hw : wrap64 (req.ttl * nsPerSec) = req.ttl * nsPerSec := by
      simp only [nsPerSec] at hsmall ⊢
      rw [wrap64]
      omega
    rw [appliedTTL, if_pos hpos, hw]
    rcases lt_or_le (req.ttl * nsPerSec) cfg.maxTTL with h | h
    · rw [if_pos h, min_eq_left (le_of_lt h)]
    · rw [if_neg (not_lt.mpr h), min_eq_right h]
  · intro h0
    rw [appliedTTL, if_neg (by omega)]
  · simp [handleSend, Put, habs, hid, hdata]

/-- Witness for C6 (amended) at a concrete input: requested TTL 60 s
(no overflow) against a 3600 s maximum. -/
theorem send_ttl_policy_witness :
    ("id1" : String) ≠ "" ∧ ("data" : String) ≠ "" ∧
    lookupID ([] : Store) "id1" = none ∧ (0 : Int) < 60 ∧
    (60 : Int) * nsPerSec < 9223372036854775808 ∧
    appliedTTL ⟨10485760, 3600000000000⟩ 60
      = min (60 * nsPerSec) (3600000000000 : Int) ∧
    handleSend ⟨10485760, 3600000000000⟩ [] ⟨"id1", "data", 60⟩ 0 =
      ((201, ⟨true, some ((0 : Int) + appliedTTL ⟨10485760, 3600000000000⟩ 60), ""⟩),
       [("id1", ⟨"data", 0, appliedTTL ⟨10485760, 3600000000000⟩ 60⟩)]) :=
  ⟨by decide, by decide, rfl, by decide, by decide,
   (send_ttl_policy ⟨10485760, 3600000000000⟩ [] ⟨"id1", "data", 60⟩ 0
      (by decide) (by decide) rfl).2.1 (by decide) (by decide),
   (send_ttl_policy ⟨10485760, 3600000000000⟩ [] ⟨"id1", "data", 60⟩ 0
      (by decide) (by decide) rfl).2.2.2⟩

/-- Claim C7: whenever the store lookup misses — codeID never existed,
already consumed, or TTL expired — `handleReceive` produces the one
fixed response: status 404 with the single error "not found or
expired"; the response value does not depend on which internal state
caused the miss. -/
theorem receive_miss_uniform (st : Store) (id : String) (now : Int)
    (hid : id ≠ "") (hmiss : (GetAndDelete st id now).1 = none) :
    handleReceive st id now =
      ((404, ⟨false, none, "not found or expired"⟩),
       (GetAndDelete st id now).2) := by
  simp [handleReceive, hid, hmiss]

/-- Witness for C7: the three internal miss states — never existed,
already consumed, and expired — produce the identical 404 response. -/
theorem receive_miss_uniform_witness :
    ("z" : String) ≠ "" ∧
    (GetAndDelete ([] : Store) "z" 5).1 = none ∧
    (handleReceive ([] : Store) "z" 5).1
      = (404, ⟨false, none, "not found or expired"⟩) ∧
    (handleReceive (GetAndDelete [("z", (⟨"d", 0, 3600⟩ : Blob))] "z" 1).2
        "z" 2).1
      = (404, ⟨false, none, "not found or expired"⟩) ∧
    (handleReceive [("z", (⟨"d", 0, 5⟩ : Blob))] "z" 99).1
      = (404, ⟨false, none, "not found or expired"⟩) :=
  ⟨by decide, rfl,
   congrArg Prod.fst (receive_miss_uniform [] "z" 5 (by decide) rfl),
   congrArg Prod.fst
     (receive_miss_uniform (GetAndDelete [("z", ⟨"d", 0, 3600⟩)] "z" 1).2
       "z" 2 (by decide) (by decide)),
   congrArg Prod.fst
     (receive_miss_uniform [("z", ⟨"d", 0, 5⟩)] "z" 99 (by decide)
       (by decide))⟩

/-- Claim C9: `handleSend` answers 409 exactly on a duplicate codeID
(for an otherwise well-formed request), and the error the client's
Send surfaces in that case is a fixed string different from the one
surfaced for every other server-reported failure. -/
theorem send_conflict_distinct (cfg : Config) (st : Store) (req : SendReq)
    (now : Int) :
    ((handleSend cfg st req now).1.1 = 409 ↔
      req.codeID ≠ "" ∧ req.data ≠ "" ∧
      (lookupID st req.codeID).isSome = true) ∧
    ((handleSend cfg st req now).1.1 = 409 →
      clientSendResult (handleSend cfg st req now).1.2 =
        Except.error "server error: code ID already exists, try again") ∧
    ((handleSend cfg st req now).1.2.ok = false →
      (handleSend cfg st req now).1.1 ≠ 409 →
      clientSendResult (handleSend cfg st req now).1.2 ≠
        Except.error "server error: code ID already exists, try again") := by
  by_cases hvalid : req.codeID = "" ∨ req.data = ""
  · have h : handleSend cfg st req now =
        ((400, ⟨false, none, "code_id and data are required"⟩), st) := by
      rw [handleSend, if_pos hvalid]
    rw [h]
    refine ⟨?_, ?_, ?_⟩
    · constructor
      · intro hc; simp at hc
      · rintro ⟨h1, h2, _⟩
        rcases hvalid with hv | hv
        · exact absurd hv h1
        · exact absurd hv h2
    · intro hc; simp at hc
    · intro _ _ hcontra
      have hne : ("server error: " ++ "code_id and data are required")
          ≠ "server error: code ID already exists, try again" := by decide
      exact hne (Except.error.inj hcontra)
  · push_neg at hvalid
    cases hput : lookupID st req.codeID with
    | none =>
      have h : handleSend cfg st req now =
          ((201, ⟨true, some (now + appliedTTL cfg req.ttl), ""⟩),
           (req.codeID, ⟨req.data, now, appliedTTL cfg req.ttl⟩) :: st) := by
        simp [handleSend, Put, hput, hvalid.1, hvalid.2]
      rw [h]
      refine ⟨?_, ?_, ?_⟩
      · constructor
        · intro hc; simp at hc
        · rintro ⟨_, _, hs⟩
          simp at hs
      · intro hc; simp at hc
      · intro hok; simp at hok
    | some b =>
      have h : handleSend cfg st req now =
          ((409, ⟨false, none, "code ID already exists, try again"⟩), st) := by
        simp [handleSend, Put, hput, hvalid.1, hvalid.2]
      rw [h]
      refine ⟨?_, ?_, ?_⟩
      · simp [hvalid.1, hvalid.2, hput]
      · intro _; rfl
      · intro _ hc; exact absurd rfl hc

/-- Witness for C9 at a concrete duplicate codeID. -/
theorem send_conflict_distinct_witness :
    (handleSend ⟨10, 100⟩ [("id1", (⟨"x", 0, 5⟩ : Blob))]
      ⟨"id1", "y", 0⟩ 0).1.1 = 409 ∧
    clientSendResult (handleSend ⟨10, 100⟩ [("id1", (⟨"x", 0, 5⟩ : Blob))]
      ⟨"id1", "y", 0⟩ 0).1.2 =
      Except.error "server error: code ID already exists, try again" :=
  have h409 := (send_conflict_distinct ⟨10, 100⟩ [("id1", ⟨"x", 0, 5⟩)]
      ⟨"id1", "y", 0⟩ 0).1.mpr ⟨by decide, by decide, by decide⟩
  ⟨h409, (send_conflict_distinct ⟨10, 100⟩ [("id1", ⟨"x", 0, 5⟩)]
      ⟨"id1", "y", 0⟩ 0).2.1 h409⟩

/-- Counterexample to claim C10: a store holding one entry whose TTL
has elapsed. `Count` reports 1, while the number of stored entries
whose TTL has not elapsed is 0 — `Count` is not the live entry count. -/
theorem count_counts_expired_entry :
    Count [("a", (⟨"d", 0, 5⟩ : Blob))] = 1 ∧
    liveCount [("a", (⟨"d", 0, 5⟩ : Blob))] 10 = 0 ∧
    Count [("a", (⟨"d", 0, 5⟩ : Blob))]
      ≠ liveCount [("a", (⟨"d", 0, 5⟩ : Blob))] 10 := by
  decide

/-- Claim C10 as amended: `Count` returns the raw number of stored
entries — live entries plus expired entries not yet removed by a fetch
or sweep — and this is the integer the health endpoint reports in its
blobs field. -/
theorem count_is_raw_size (st : Store) (now : Int) :
    Count st = liveCount st now + expiredCount st now ∧
    (handleHealth st).2.2 = Count st := by
  refine ⟨?_, rfl⟩
  have h := List.length_eq_length_filter_add
    (l := st) (fun p => decide (p.2.ttl < now - p.2.createdAt))
  rw [Count, liveCount, expiredCount]
  omega

end GitShare

namespace GitShare

/-! ## Cipher lemmas -/

theorem DeriveKey_length (p : List Nat) : (DeriveKey p).length = KeySize := by
  simp [DeriveKey]

theorem keystream_length (key nonce : List Nat) (n : Nat) :
    (keystream key nonce n).length = n := by
  simp [keystream]

theorem xorBytes_cancel (a : List Nat) :
    ∀ ks, ks.length = a.length → xorBytes (xorBytes a ks) ks = a := by
  induction a with
  | nil =>
    intro ks h
    cases ks with
    | nil => rfl
    | cons k ks => simp at h
  | cons x a ih =>
    intro ks h
    cases ks with
    | nil => simp at h
    | cons k ks =>
      have hstep : xorBytes (xorBytes (x :: a) (k :: ks)) (k :: ks)
          = ((x ^^^ k) ^^^ k) :: xorBytes (xorBytes a ks) ks := rfl
      rw [hstep, Nat.xor_cancel_right, ih ks (by simpa using h)]

theorem xorBytes_keystream_length (key nonce pt : List Nat) :
    (xorBytes pt (keystream key nonce pt.length)).length = pt.length := by
  simp [xorBytes, keystream_length]

theorem polyTag_length (key nonce ct : List Nat) :
    (polyTag key nonce ct).length = TagSize := by
  simp [polyTag]

theorem sealX_length (key nonce pt : List Nat) :
    (sealX key nonce pt).length = pt.length + TagSize := by
  simp [sealX, xorBytes_keystream_length, polyTag_length]

theorem openX_sealX (key nonce pt : List Nat) :
    openX key nonce (sealX key nonce pt) = some pt := by
  have hks : (keystream key nonce pt.length).length = pt.length :=
    keystream_length key nonce pt.length
  have hct : (xorBytes pt (keystream key nonce pt.length)).length
      = pt.length := xorBytes_keystream_length key nonce pt
  rw [openX, sealX]
  set ct := xorBytes pt (keystream key nonce pt.length) with hctdef
  set tag := polyTag key nonce ct with htagdef
  have htag : tag.length = TagSize := polyTag_length key nonce ct
  have hlen : (ct ++ tag).length = pt.length + TagSize := by
    simp [hct, htag]
  rw [if_neg (by omega)]
  have hsub : (ct ++ tag).length - TagSize = ct.length := by omega
  rw [hsub, List.take_left, List.drop_left, if_pos rfl, hct, hctdef,
    xorBytes_cancel pt _ hks]

end GitShare

namespace GitShare

/-- Claim C1: for every plaintext, passphrase and encryption nonce,
decrypting the output of `Encrypt` under the key derived from the same
passphrase returns the plaintext. -/
theorem encrypt_decrypt_roundtrip (P S nonce ct : List Nat)
    (hn : nonce.length = NonceSizeX)
    (henc : Encrypt P (DeriveKey S) nonce = Except.ok ct) :
    Decrypt ct (DeriveKey S) = Except.ok P := by
  have hk : (DeriveKey S).length = KeySize := DeriveKey_length S
  rw [Encrypt, if_neg (by simp [hk])] at henc
  have hct : ct = nonce ++ sealX (DeriveKey S) nonce P :=
    (Except.ok.inj henc).symm
  subst hct
  rw [Decrypt, if_neg (by simp [hk])]
  have hlen : (nonce ++ sealX (DeriveKey S) nonce P).length
      = NonceSizeX + (P.length + TagSize) := by
    simp [hn, sealX_length]
  rw [if_neg (by omega)]
  have htk : (nonce ++ sealX (DeriveKey S) nonce P).take NonceSizeX
      = nonce := by
    rw [← hn]
    exact List.take_left _ _
  have hdr : (nonce ++ sealX (DeriveKey S) nonce P).drop NonceSizeX
      = sealX (DeriveKey S) nonce P := by
    rw [← hn]
    exact List.drop_left _ _
  rw [htk, hdr, openX_sealX]

set_option maxRecDepth 40000 in
/-- Witness for C1 at a concrete plaintext, passphrase and nonce. -/
theorem encrypt_decrypt_roundtrip_witness :
    (List.range 24).length = NonceSizeX ∧
    Encrypt [100, 105, 102, 102] (DeriveKey [97]) (List.range 24)
      = Except.ok
          (List.range 24 ++
            sealX (DeriveKey [97]) (List.range 24) [100, 105, 102, 102]) ∧
    Decrypt
        (List.range 24 ++
          sealX (DeriveKey [97]) (List.range 24) [100, 105, 102, 102])
        (DeriveKey [97])
      = Except.ok [100, 105, 102, 102] :=
  ⟨by decide, by decide,
   encrypt_decrypt_roundtrip [100, 105, 102, 102] [97] (List.range 24)
     (List.range 24 ++
       sealX (DeriveKey [97]) (List.range 24) [100, 105, 102, 102])
     (by decide) (by decide)⟩

set_option maxRecDepth 40000 in
/-- Counterexample to claim C8: an input shorter than the nonce size
and an input failing authentication both make `Decrypt` fail, but with
two different error outcomes — the failure does reveal which of the
two causes occurred, so the single-undifferentiated-outcome claim is
false as stated. -/
theorem decrypt_errors_distinguishable :
    Decrypt [] (DeriveKey [97]) = Except.error "ciphertext too short" ∧
    Decrypt (List.replicate 40 7) (DeriveKey [97])
      = Except.error
          "decryption failed (wrong passphrase?): chacha20poly1305: message authentication failed" ∧
    Decrypt [] (DeriveKey [97])
      ≠ Decrypt (List.replicate 40 7) (DeriveKey [97]) := by
  refine ⟨by decide, by decide, by decide⟩

/-- Claim C8 as amended: `Decrypt` fails on every input shorter than
the nonce size, with one fixed "ciphertext too short" error, and on
every authentication failure — wrong key, corrupted data or truncation
past the nonce — with one fixed undifferentiated error that carries no
cause information; the two fixed outcomes differ from each other. -/
theorem decrypt_failure_modes (key ct : List Nat)
    (hk : key.length = KeySize) :
    (ct.length < NonceSizeX →
      Decrypt ct key = Except.error "ciphertext too short") ∧
    (¬ ct.length < NonceSizeX →
      openX key (ct.take NonceSizeX) (ct.drop NonceSizeX) = none →
      Decrypt ct key
        = Except.error
            "decryption failed (wrong passphrase?): chacha20poly1305: message authentication failed") := by
  refine ⟨?_, ?_⟩
  · intro hshort
    rw [Decrypt, if_neg (by simp [hk]), if_pos hshort]
  · intro hlong hopen
    rw [Decrypt, if_neg (by simp [hk]), if_neg hlong, hopen]

set_option maxRecDepth 40000 in
/-- Witness for C8 (amended) at a concrete too-short input. -/
theorem decrypt_failure_modes_witness :
    (DeriveKey [98]).length = KeySize ∧
    ([] : List Nat).length < NonceSizeX ∧
    Decrypt [] (DeriveKey [98]) = Except.error "ciphertext too short" :=
  ⟨by decide, by decide,
   (decrypt_failure_modes (DeriveKey [98]) [] (by decide)).1 (by decide)⟩

end GitShare

namespace GitShare

/-! ## Code scheme lemmas -/

theorem charAt62_mem (i : Nat) : charAt62 i ∈ base62Chars := by
  unfold charAt62
  cases h : base62Chars.get? i with
  | none =>
    simp only [h]
    decide
  | some c =>
    simp only [h]
    exact List.get?_mem h

theorem charAt62_ne_sep (i : Nat) : charAt62 i ≠ sepChar := by
  have hall : ∀ c ∈ base62Chars, c ≠ sepChar := by decide
  exact hall _ (charAt62_mem i)

set_option maxRecDepth 40000 in
theorem nthWord_mem (i : Nat) : nthWord i ∈ Words := by
  unfold nthWord
  cases h : Words.get? i with
  | none =>
    simp only [h]
    decide
  | some w =>
    simp only [h]
    exact List.get?_mem h

set_option maxRecDepth 40000 in
theorem words_ok : ∀ w ∈ Words, w ≠ [] ∧ sepChar ∉ w := by decide

theorem splitFirst_sep (sep : Char) (b : List Char) :
    ∀ a : List Char, sep ∉ a → splitFirst sep (a ++ sep :: b) = some (a, b) := by
  intro a
  induction a with
  | nil =>
    intro _
    simp [splitFirst]
  | cons c a ih =>
    intro hnot
    have hc : c ≠ sep := fun h => hnot (by simp [h])
    have ha : sep ∉ a := fun h => hnot (List.mem_cons_of_mem _ h)
    have hstep : splitFirst sep ((c :: a) ++ sep :: b)
        = match splitFirst sep (a ++ sep :: b) with
          | none => none
          | some (x, y) => some (c :: x, y) := by
      simp only [List.cons_append, splitFirst, if_neg hc]
      rfl
    rw [hstep, ih ha]

theorem splitAll_no_sep (sep : Char) :
    ∀ w : List Char, sep ∉ w → splitAll sep w = [w] := by
  intro w
  induction w with
  | nil =>
    intro _
    rfl
  | cons c w ih =>
    intro hnot
    have hc : c ≠ sep := fun h => hnot (by simp [h])
    have hw : sep ∉ w := fun h => hnot (List.mem_cons_of_mem _ h)
    simp only [splitAll, if_neg hc, ih hw]

theorem splitAll_sep_append (sep : Char) (r : List Char) :
    ∀ w : List Char, sep ∉ w →
      splitAll sep (w ++ sep :: r) = w :: splitAll sep r := by
  intro w
  induction w with
  | nil =>
    intro _
    simp [splitAll]
  | cons c w ih =>
    intro hnot
    have hc : c ≠ sep := fun h => hnot (by simp [h])
    have hw : sep ∉ w := fun h => hnot (List.mem_cons_of_mem _ h)
    have hstep : splitAll sep ((c :: w) ++ sep :: r)
        = match splitAll sep (w ++ sep :: r) with
          | [] => [[c]]
          | h :: t => (c :: h) :: t := by
      simp only [List.cons_append, splitAll, if_neg hc]
      rfl
    rw [hstep, ih hw]

theorem splitAll_joinSep (sep : Char) :
    ∀ ws : List (List Char), ws ≠ [] → (∀ w ∈ ws, sep ∉ w) →
      splitAll sep (joinSep sep ws) = ws := by
  intro ws
  induction ws with
  | nil =>
    intro h
    exact absurd rfl h
  | cons w ws ih =>
    intro _ hall
    cases ws with
    | nil => exact splitAll_no_sep sep w (hall w (by simp))
    | cons w2 ws2 =>
      have hj : joinSep sep (w :: w2 :: ws2)
          = w ++ sep :: joinSep sep (w2 :: ws2) := rfl
      rw [hj, splitAll_sep_append sep _ w (hall w (by simp)),
        ih (by simp) (fun x hx => hall x (List.mem_cons_of_mem _ hx))]

theorem joinSep_ne_nil (sep : Char) (w : List Char) (ws : List (List Char))
    (hw : w ≠ []) : joinSep sep (w :: ws) ≠ [] := by
  cases ws with
  | nil => exact hw
  | cons w2 ws2 =>
    have hj : joinSep sep (w :: w2 :: ws2)
        = w ++ sep :: joinSep sep (w2 :: ws2) := rfl
    rw [hj]
    simp

end GitShare

namespace GitShare

/-- Claim C3: every (code, codeID, passphrase) triple produced by
`GenerateCode` — a codeID of `CodeIDLength` base62 draws and a
passphrase of `PassphraseWords` word-list draws — parses back to
exactly that (codeID, passphrase) pair. -/
theorem generate_parse_roundtrip (cIdxs wIdxs : List Nat)
    (hc : cIdxs.length = CodeIDLength)
    (hcb : ∀ i ∈ cIdxs, i < base62Chars.length)
    (hw : wIdxs.length = PassphraseWords)
    (hwb : ∀ i ∈ wIdxs, i < Words.length) :
    ParseCode (GenerateCode cIdxs wIdxs).1 =
      some ((GenerateCode cIdxs wIdxs).2.1, (GenerateCode cIdxs wIdxs).2.2) := by
  have hsepid : sepChar ∉ generateCodeID cIdxs := by
    intro hmem
    rw [generateCodeID] at hmem
    rcases List.mem_map.mp hmem with ⟨i, _, hi⟩
    exact charAt62_ne_sep i hi
  have hwordsall : ∀ w ∈ wIdxs.map nthWord, sepChar ∉ w := by
    intro w hwmem
    rcases List.mem_map.mp hwmem with ⟨i, _, rfl⟩
    exact (words_ok _ (nthWord_mem i)).2
  have hwne : wIdxs.map nthWord ≠ [] := by
    intro hnil
    rw [List.map_eq_nil_iff] at hnil
    rw [hnil] at hw
    simp [PassphraseWords] at hw
  have hsplit : splitAll sepChar (Pick wIdxs) = wIdxs.map nthWord := by
    rw [Pick]
    exact splitAll_joinSep sepChar _ hwne hwordsall
  have hpne : Pick wIdxs ≠ [] := by
    rw [Pick]
    cases hmap : wIdxs.map nthWord with
    | nil => exact absurd hmap hwne
    | cons w ws =>
      apply joinSep_ne_nil
      have hwmem : w ∈ wIdxs.map nthWord := by
        rw [hmap]
        simp
      rcases List.mem_map.mp hwmem with ⟨i, _, rfl⟩
      exact (words_ok _ (nthWord_mem i)).1
  have hidne : generateCodeID cIdxs ≠ [] := by
    intro hnil
    have hlen := congrArg List.length hnil
    rw [generateCodeID] at hlen
    simp [hc, CodeIDLength] at hlen
  show ParseCode (generateCodeID cIdxs ++ sepChar :: Pick wIdxs)
      = some (generateCodeID cIdxs, Pick wIdxs)
  rw [ParseCode, splitFirst_sep sepChar (Pick wIdxs) (generateCodeID cIdxs) hsepid]
  dsimp only
  rw [if_neg (by rintro (h | h); exacts [hidne h, hpne h]),
    if_pos (by rw [hsplit, List.length_map, hw])]

set_option maxRecDepth 40000 in
/-- Witness for C3 at a concrete draw sequence. -/
theorem generate_parse_roundtrip_witness :
    ([0, 1, 2, 3, 4, 5, 6, 7, 8, 9] : List Nat).length = CodeIDLength ∧
    (∀ i ∈ ([0, 1, 2, 3, 4, 5, 6, 7, 8, 9] : List Nat),
      i < base62Chars.length) ∧
    ([0, 1, 2, 3] : List Nat).length = PassphraseWords ∧
    (∀ i ∈ ([0, 1, 2, 3] : List Nat), i < Words.length) ∧
    ParseCode (GenerateCode [0, 1, 2, 3, 4, 5, 6, 7, 8, 9] [0, 1, 2, 3]).1 =
      some ((GenerateCode [0, 1, 2, 3, 4, 5, 6, 7, 8, 9] [0, 1, 2, 3]).2.1,
        (GenerateCode [0, 1, 2, 3, 4, 5, 6, 7, 8, 9] [0, 1, 2, 3]).2.2) :=
  ⟨by decide, by decide, by decide, by decide,
   generate_parse_roundtrip [0, 1, 2, 3, 4, 5, 6, 7, 8, 9] [0, 1, 2, 3]
     (by decide) (by decide) (by decide) (by decide)⟩

end GitShare
